import Mathlib

/-!
Verification of the subtitle-synchronized playback controller of the
shadow-read application (PlayPage, useMediaInit, useSubtitleIndexPersist,
MediaDatabaseService).

The definitions below are a shallow embedding of the TypeScript source:

* `SubtitleEntry`, `Subtitle`, `PlayMode` mirror the data model in
  `src/types` (SubtitleEntry carries display bounds `startTime`/`endTime`
  and user-adjustable `preciseStartTime`/`preciseEndTime`, all in
  milliseconds; `Subtitle` is the persisted aggregate with an optional
  `lastSubtitleIndex`).
* `findSubtitleIndex` embeds the `entries.findIndex(...)` call of
  `handleTimeUpdate` (the Subtitle Index Resolver).
* `checkPlayMode`, `handleTimeUpdate`, `handlePreviousSubtitle`,
  `handleNextSubtitle`, `handleEnterEditMode`, `handleExitEditMode`,
  `handleTimeOffset`, `handleSaveTimeOffset`, `handleLoadedMetadata`
  embed the correspondingly named handlers of `PlayPage`.
* `savedIndexFromLoad` embeds the `savedSubtitleIndex` computation of
  `useMediaInit`; `persistHookAfterMount` / `teardownWrites` embed the
  `useSubtitleIndexPersist` hook under standard React effect semantics.

JavaScript runtime faults (dereferencing an `undefined` array element)
are modelled with `Option`/an explicit `fault` constructor; media commands
issued to the video element are collected in a `List MediaCommand`.
Times are modelled in integer milliseconds (the source compares
`currentTime * 1000` against millisecond fields with `>=`/`<` only, so
the order structure is all that the boundary logic uses).
-/

/-- One timed subtitle line, as parsed by `SubtitleParserService` and stored
in the `Subtitle` aggregate. All times are in milliseconds. -/
structure SubtitleEntry where
  index : Int
  startTime : Int
  endTime : Int
  preciseStartTime : Int
  preciseEndTime : Int
  text : String
deriving DecidableEq, Repr

/-- The persisted subtitle aggregate (`Subtitle` in `src/types`).
`lastSubtitleIndex` is optional in storage; `none` models an absent field. -/
structure Subtitle where
  id : Int
  videoId : Int
  entries : List SubtitleEntry
  createdAt : Int
  lastSubtitleIndex : Option Int
deriving DecidableEq, Repr

/-- The play mode radio selection (`PlayModeValues`: "off", "single-pause",
"single-loop"). -/
inductive PlayMode where
  | off
  | singlePause
  | singleLoop
deriving DecidableEq, Repr

/-- Candidate precise times buffered while edit mode is active (`editedTime`
state in `PlayPage`; in the current source it is a non-nullable record). -/
structure EditedTime where
  startTime : Int
  endTime : Int
deriving DecidableEq, Repr

/-- Commands the controller issues to the media element: `pause`,
`seek ms` (the source assigns `currentTime = ms / 1000`) and `play`. -/
inductive MediaCommand where
  | pause
  | seek (ms : Int)
  | play
deriving DecidableEq, Repr

/-- The slice of `PlayPage` component state that the playback controller
reads and writes. -/
structure PlayState where
  subtitle : Option Subtitle
  currentSubtitleIndex : Int
  playMode : PlayMode
  editMode : Bool
  editedTime : EditedTime
deriving DecidableEq, Repr

/-- JavaScript array indexing `entries[i]` for a possibly out-of-range or
negative integer index: `none` models `undefined`. -/
def entryAt (entries : List SubtitleEntry) (i : Int) : Option SubtitleEntry :=
  if i < 0 then none else entries.get? i.toNat

/-- The covering predicate of the Subtitle Index Resolver:
`t >= entry.startTime && t < entry.endTime` (display bounds, not the
precise bounds). -/
def covers (e : SubtitleEntry) (t : Int) : Prop :=
  e.startTime ≤ t ∧ t < e.endTime

instance (e : SubtitleEntry) (t : Int) : Decidable (covers e t) := by
  unfold covers; infer_instance

/-- Boolean form of `covers`, matching the arrow-function predicate passed to
`findIndex` in `handleTimeUpdate`. -/
def coversBool (e : SubtitleEntry) (t : Int) : Bool :=
  decide (e.startTime ≤ t) && decide (t < e.endTime)

/-- The Subtitle Index Resolver: `subtitle.entries.findIndex(entry =>
currentTimeMs >= entry.startTime && currentTimeMs < entry.endTime)`.
Returns the index of the first covering entry, else `-1`. Total by
construction. -/
def findSubtitleIndex : List SubtitleEntry → Int → Int
  | [], _ => -1
  | e :: rest, t =>
    if coversBool e t then 0
    else
      let r := findSubtitleIndex rest t
      if r = -1 then -1 else r + 1


/-- The play-mode check of `PlayPage.checkPlayMode`. Returns the boolean the
source returns (whether `handleTimeUpdate` may update the index) together
with the media commands issued, or `none` where the source would throw
(dereferencing `entries[currentSubtitleIndex]` when it is `undefined` in
the single-pause or single-loop branch). The edit-mode branch is checked
first, exactly as in the source, and uses the candidate `editedTime` values
(in the current source `editedTime` is always a non-null record, so the
`?? currentEntry.precise...` fallbacks never fire). -/
def checkPlayMode (s : PlayState) (currentTimeMs : Int) (shouldSeekToStart : Bool) :
    Option (Bool × List MediaCommand) :=
  match s.subtitle with
  | none => some (true, [])
  | some sub =>
    if s.currentSubtitleIndex = -1 then some (true, [])
    else
      if s.editMode then
        if s.editedTime.endTime ≤ currentTimeMs then
          if shouldSeekToStart then some (false, [MediaCommand.seek s.editedTime.startTime])
          else some (false, [MediaCommand.pause])
        else some (false, [])
      else if s.playMode = PlayMode.singlePause then
        match entryAt sub.entries s.currentSubtitleIndex with
        | none => none
        | some e =>
          if e.preciseEndTime ≤ currentTimeMs then
            if shouldSeekToStart then some (false, [MediaCommand.seek e.preciseStartTime])
            else some (false, [MediaCommand.pause])
          else some (false, [])
      else if s.playMode = PlayMode.singleLoop then
        match entryAt sub.entries s.currentSubtitleIndex with
        | none => none
        | some e =>
          if e.preciseEndTime ≤ currentTimeMs then
            some (false, [MediaCommand.seek e.preciseStartTime])
          else some (false, [])
      else some (true, [])


/-- The time-advance handler `PlayPage.handleTimeUpdate`: consult
`checkPlayMode`; when it allows an index update, run the resolver and update
`currentSubtitleIndex` only when the resolver found a covering entry. -/
def handleTimeUpdate (s : PlayState) (currentTimeMs : Int) :
    Option (PlayState × List MediaCommand) :=
  match s.subtitle with
  | none => some (s, [])
  | some sub =>
    match checkPlayMode s currentTimeMs false with
    | none => none
    | some (shouldUpdate, cmds) =>
      if shouldUpdate then
        if findSubtitleIndex sub.entries currentTimeMs = -1 then some (s, cmds)
        else some ({ s with
          currentSubtitleIndex := findSubtitleIndex sub.entries currentTimeMs }, cmds)
      else some (s, cmds)

/-- Fixed two-entry subtitle used by the concrete witnesses: display ranges
`[0,2000)` and `[2000,4000)`, precise times equal to the display times. -/
def exEntries : List SubtitleEntry :=
  [⟨0, 0, 2000, 0, 2000, "A"⟩, ⟨1, 2000, 4000, 2000, 4000, "B"⟩]

/-- A stored subtitle aggregate over `exEntries`. -/
def exSubtitle : Subtitle := ⟨7, 3, exEntries, 0, some (-1)⟩

/-- A play state in Off mode with the first entry current. -/
def exOffState : PlayState :=
  ⟨some exSubtitle, 0, PlayMode.off, false, ⟨0, 0⟩⟩

/-- A play state in SinglePause mode over `exSubtitle` with the first entry
current. -/
def exPauseState : PlayState :=
  ⟨some exSubtitle, 0, PlayMode.singlePause, false, ⟨0, 0⟩⟩

/-- A play state in SingleLoop mode over `exSubtitle` with the first entry
current. -/
def exLoopState : PlayState :=
  ⟨some exSubtitle, 0, PlayMode.singleLoop, false, ⟨0, 0⟩⟩

/-- Entries where the first entry's `preciseEndTime` was edited to 3000,
past the start of the second entry's display range. -/
def cexPauseEntries : List SubtitleEntry :=
  [⟨0, 0, 2000, 0, 3000, "A"⟩, ⟨1, 2000, 4000, 2000, 4000, "B"⟩]

/-- A SinglePause play state over `cexPauseEntries` with the first entry
current. -/
def cexPauseState : PlayState :=
  ⟨some ⟨7, 3, cexPauseEntries, 0, some (-1)⟩, 0, PlayMode.singlePause, false, ⟨0, 0⟩⟩

/-- The edit-mode entry handler `PlayPage.handleEnterEditMode`: snapshot the
current entry's precise times into the candidate `editedTime` buffer and
raise `editMode`. `none` models the fault of reading `.preciseStartTime`
from an `undefined` entry (current index out of range and not `-1`). -/
def handleEnterEditMode (s : PlayState) : Option PlayState :=
  match s.subtitle with
  | none => some s
  | some sub =>
    if s.currentSubtitleIndex = -1 then some s
    else match entryAt sub.entries s.currentSubtitleIndex with
      | none => none
      | some e => some { s with
          editedTime := ⟨e.preciseStartTime, e.preciseEndTime⟩,
          editMode := true }

/-- The edit-mode exit handler `PlayPage.handleExitEditMode`: drop the
candidate buffer (reset to zeros, as the source does) and lower `editMode`.
It touches neither the subtitle aggregate nor storage. -/
def handleExitEditMode (s : PlayState) : PlayState :=
  { s with editMode := false, editedTime := ⟨0, 0⟩ }

/-- The candidate-time adjusting handler `PlayPage.handleTimeOffset`:
add or subtract `offset` milliseconds on the candidate start or end time. -/
def handleTimeOffset (s : PlayState) (offset : Int)
    (isStartTime isForward : Bool) : PlayState :=
  let prev := s.editedTime
  let newTime := if isStartTime then prev.startTime else prev.endTime
  let newOffset := if isForward then newTime + offset else newTime - offset
  if isStartTime then { s with editedTime := { prev with startTime := newOffset } }
  else { s with editedTime := { prev with endTime := newOffset } }

/-- The in-place mutation `currentEntry.preciseStartTime = ...;
currentEntry.preciseEndTime = ...` performed by `handleSaveTimeOffset` on
the (shared) entries array. `none` models the fault of assigning to a field
of `undefined`. -/
def updateEntryAt (entries : List SubtitleEntry) (i : Int) (et : EditedTime) :
    Option (List SubtitleEntry) :=
  if i < 0 then none
  else match entries.get? i.toNat with
    | none => none
    | some e => some (entries.set i.toNat
        { e with preciseStartTime := et.startTime, preciseEndTime := et.endTime })

/-- The storage write `MediaDatabaseService.updateSubtitle`: an IndexedDB
`put` keyed by `subtitle.id` (replace the record with the same id, or add
the record). The store is modelled as a list of subtitle aggregates. -/
def dbPutSubtitle (db : List Subtitle) (sub : Subtitle) : List Subtitle :=
  if db.any (fun s => decide (s.id = sub.id)) then
    db.map (fun s => if s.id = sub.id then sub else s)
  else db ++ [sub]

/-- The storage read `MediaDatabaseService.getSubtitleByVideoId`: look up
the first aggregate whose `videoId` matches. -/
def dbGetSubtitleByVideoId (db : List Subtitle) (vid : Int) : Option Subtitle :=
  db.find? (fun s => decide (s.videoId = vid))

/-- Result of one invocation of the save handler: the resulting component
state, the resulting store contents, how many storage writes were
attempted, and whether any error was surfaced to the caller/UI. -/
structure SaveOutcome where
  state : PlayState
  db : List Subtitle
  writeAttempts : Nat
  errorSurfaced : Bool
deriving DecidableEq, Repr

/-- The save handler `PlayPage.handleSaveTimeOffset`. The source first
mutates the current entry of the shared entries array in place (through the
shallow copy `{ ...subtitle }`), then awaits
`MediaDatabaseService.updateSubtitle`; on success it exits edit mode, and a
rejection lands in an empty `catch {}` block (no message, no retry, no
exit). `storeFails` models whether the storage write rejects; the in-memory
`subtitle` state reflects the already-performed mutation in both cases. -/
def handleSaveTimeOffset (s : PlayState) (db : List Subtitle)
    (storeFails : Bool) : Option SaveOutcome :=
  match s.subtitle with
  | none => some ⟨s, db, 0, false⟩
  | some sub =>
    if s.currentSubtitleIndex = -1 then some ⟨s, db, 0, false⟩
    else
      match updateEntryAt sub.entries s.currentSubtitleIndex s.editedTime with
      | none => none
      | some entries2 =>
        if storeFails then
          some ⟨{ s with subtitle := some { sub with entries := entries2 } },
                db, 1, false⟩
        else
          some ⟨handleExitEditMode
                  { s with subtitle := some { sub with entries := entries2 } },
                dbPutSubtitle db { sub with entries := entries2 }, 1, false⟩

/-- A play state in edit mode whose candidate start time was moved from 0
to 200 (as after `enter(0)` plus one `+200ms` start adjustment), paired
below with a failing storage write. -/
def exEditFailState : PlayState :=
  ⟨some exSubtitle, 0, PlayMode.off, true, ⟨200, 2000⟩⟩

/-- The previous-entry navigation handler `PlayPage.handlePreviousSubtitle`:
no-op when `currentSubtitleIndex < 1`, otherwise seek to the previous
entry's display start, decrement the index and play. -/
def handlePreviousSubtitle (s : PlayState) : Option (PlayState × List MediaCommand) :=
  match s.subtitle with
  | none => some (s, [])
  | some sub =>
    if s.currentSubtitleIndex < 1 then some (s, [])
    else match entryAt sub.entries (s.currentSubtitleIndex - 1) with
      | none => none
      | some e => some ({ s with currentSubtitleIndex := s.currentSubtitleIndex - 1 }, [MediaCommand.seek e.startTime, MediaCommand.play])

/-- The next-entry navigation handler `PlayPage.handleNextSubtitle`: no-op
when `currentSubtitleIndex === entries.length - 1`, otherwise seek to the
next entry's display start, increment the index and play. -/
def handleNextSubtitle (s : PlayState) : Option (PlayState × List MediaCommand) :=
  match s.subtitle with
  | none => some (s, [])
  | some sub =>
    if s.currentSubtitleIndex = (sub.entries.length : Int) - 1 then some (s, [])
    else match entryAt sub.entries (s.currentSubtitleIndex + 1) with
      | none => none
      | some e => some ({ s with currentSubtitleIndex := s.currentSubtitleIndex + 1 }, [MediaCommand.seek e.startTime, MediaCommand.play])

/-- The ref cells of `useSubtitleIndexPersist` (`subtitleIndexRef`,
`isFirstRenderRef`) together with whether the `[mediaId]` effect has
registered its `beforeunload` listener and unmount cleanup. -/
structure PersistHookState where
  subtitleIndexRef : Int
  isFirstRenderRef : Bool
  cleanupRegistered : Bool
deriving DecidableEq, Repr

/-- Effects run after one render of the component using
`useSubtitleIndexPersist`, for a session with a constant `mediaId` (the
claim's scenario: one media per page visit). The first effect keeps
`subtitleIndexRef` at the rendered `currentSubtitleIndex`. The second
effect (deps `[mediaId]`) runs only after the first render; on that run
the first-render guard flips `isFirstRenderRef` and returns without
registering the listener or a cleanup. -/
def runHookEffects (isFirstRender : Bool) (st : PersistHookState) (idx : Int) : PersistHookState :=
  let st1 := { st with subtitleIndexRef := idx }
  if isFirstRender then
    if st1.isFirstRenderRef then { st1 with isFirstRenderRef := false }
    else { st1 with cleanupRegistered := true }
  else st1

/-- Hook state after mounting with `firstIdx` as the initial
`currentSubtitleIndex` and re-rendering with the values in `laterIdxs`
(constant `mediaId`, standard React effect semantics: the `[mediaId]`
effect runs once after the first render and never again). -/
def persistHookAfterMount (firstIdx : Int) (laterIdxs : List Int) : PersistHookState :=
  laterIdxs.foldl (runHookEffects false) (runHookEffects true ⟨firstIdx, true, false⟩ firstIdx)

/-- Storage writes of `lastSubtitleIndex` performed at teardown (unmount):
React runs the cleanup of the last `[mediaId]` effect invocation if one was
registered; the cleanup calls `updateSubtitleIndex` with the current value
of `subtitleIndexRef`. -/
def teardownWrites (st : PersistHookState) : List Int :=
  if st.cleanupRegistered then [st.subtitleIndexRef] else []

/-- The `savedSubtitleIndex` computation of `useMediaInit`: the hook state
starts at `null` and is set to the stored `lastSubtitleIndex` only when
that value is truthy (`if (subtitleData.lastSubtitleIndex)`), so both an
absent field and the value `0` leave it `null`, while `-1` (truthy in
JavaScript) is propagated. -/
def savedIndexFromLoad (lastSubtitleIndex : Option Int) : Option Int :=
  match lastSubtitleIndex with
  | none => none
  | some v => if v = 0 then none else some v

/-- Outcome of `PlayPage.handleLoadedMetadata`: do nothing, restore (seek
to `entries[i].startTime` in ms and set `currentSubtitleIndex := i`), or
throw a `TypeError` (reading `.startTime` of `undefined`). -/
inductive LoadedMetadataResult where
  | noop
  | restored (seekMs : Int) (newIndex : Int)
  | fault
deriving DecidableEq, Repr

/-- The loaded-metadata handler of `PlayPage`: guard
`!subtitle || savedSubtitleIndex < 0` (in JavaScript `null < 0` is false,
so a `null` saved index passes the guard), then read
`subtitle.entries[savedSubtitleIndex]` — `entries[null]` or an
out-of-range index is `undefined` and the `.startTime` read throws. -/
def handleLoadedMetadata (subtitle : Option Subtitle)
    (savedSubtitleIndex : Option Int) : LoadedMetadataResult :=
  match subtitle with
  | none => LoadedMetadataResult.noop
  | some sub =>
    match savedSubtitleIndex with
    | some v =>
      if v < 0 then LoadedMetadataResult.noop
      else match entryAt sub.entries v with
        | none => LoadedMetadataResult.fault
        | some e => LoadedMetadataResult.restored e.startTime v
    | none => LoadedMetadataResult.fault

/-! Basic lemmas about the resolver. -/

theorem coversBool_eq_true_iff (e : SubtitleEntry) (t : Int) :
    coversBool e t = true ↔ covers e t := by
  simp [coversBool, covers]

theorem findSubtitleIndex_ge_neg_one (entries : List SubtitleEntry) (t : Int) :
    -1 ≤ findSubtitleIndex entries t := by
  induction entries with
  | nil => simp [findSubtitleIndex]
  | cons e rest ih =>
    simp only [findSubtitleIndex]
    split
    · omega
    · split <;> omega

theorem findSubtitleIndex_eq_neg_one_iff (entries : List SubtitleEntry) (t : Int) :
    findSubtitleIndex entries t = -1 ↔ ∀ e ∈ entries, ¬ covers e t := by
  induction entries with
  | nil => simp [findSubtitleIndex]
  | cons e rest ih =>
    simp only [findSubtitleIndex, List.mem_cons]
    by_cases hc : coversBool e t
    · rw [if_pos hc]
      constructor
      · intro h; omega
      · intro h
        exact absurd ((coversBool_eq_true_iff e t).mp hc) (h e (Or.inl rfl))
    · rw [if_neg hc]
      have hcov : ¬ covers e t := fun h => hc ((coversBool_eq_true_iff e t).mpr h)
      have hge := findSubtitleIndex_ge_neg_one rest t
      constructor
      · intro h a ha
        rcases ha with ha | ha
        · exact ha ▸ hcov
        · have : findSubtitleIndex rest t = -1 := by
            by_contra hne
            rw [if_neg hne] at h
            omega
          exact (ih.mp this) a ha
      · intro h
        have : findSubtitleIndex rest t = -1 := ih.mpr (fun a ha => h a (Or.inr ha))
        rw [this]
        simp

theorem findSubtitleIndex_first_match (entries : List SubtitleEntry) (t : Int)
    (i : Nat) (e : SubtitleEntry)
    (hget : entries.get? i = some e) (hcov : covers e t)
    (hfirst : ∀ (j : Nat) (e2 : SubtitleEntry), j < i →
      entries.get? j = some e2 → ¬ covers e2 t) :
    findSubtitleIndex entries t = (i : Int) := by
  induction entries generalizing i with
  | nil => simp at hget
  | cons a rest ih =>
    cases i with
    | zero =>
      simp only [List.get?] at hget
      cases hget
      simp only [findSubtitleIndex]
      rw [if_pos ((coversBool_eq_true_iff e t).mpr hcov)]
      simp
    | succ j =>
      have hnot : ¬ covers a t :=
        hfirst 0 a (Nat.succ_pos j) rfl
      have hres : findSubtitleIndex rest t = (j : Int) := by
        apply ih j
        · simpa using hget
        · intro k e2 hk hget2
          exact hfirst (k + 1) e2 (Nat.succ_lt_succ hk) (by simpa using hget2)
      simp only [findSubtitleIndex]
      rw [if_neg (fun hb => hnot ((coversBool_eq_true_iff a t).mp hb))]
      simp only [hres]
      have : ((j : Int)) ≠ -1 := by omega
      rw [if_neg this]
      omega

/-- C4 — the Subtitle Index Resolver is a pure total function: it returns
`-1` exactly when no entry covers `t`, and it returns the index of the
first covering entry whenever one exists. (Totality holds by construction:
`findSubtitleIndex` is a structurally recursive Lean function and never
fails.) -/
theorem resolver_first_match_and_miss (entries : List SubtitleEntry) (t : Int) :
    (findSubtitleIndex entries t = -1 ↔ ∀ e ∈ entries, ¬ covers e t) ∧
    (∀ (i : Nat) (e : SubtitleEntry),
      entries.get? i = some e → covers e t →
      (∀ (j : Nat) (e2 : SubtitleEntry), j < i →
        entries.get? j = some e2 → ¬ covers e2 t) →
      findSubtitleIndex entries t = (i : Int)) := by
  refine ⟨findSubtitleIndex_eq_neg_one_iff entries t, ?_⟩
  intro i e hget hcov hfirst
  exact findSubtitleIndex_first_match entries t i e hget hcov hfirst

/-- Witness for `resolver_first_match_and_miss`: entries `[0,2000)` and
`[2000,4000)`, timestamp 2500 is first covered by the entry at index 1. -/
theorem resolver_first_match_and_miss_witness :
    findSubtitleIndex
      [⟨0, 0, 2000, 0, 2000, "A"⟩, ⟨1, 2000, 4000, 2000, 4000, "B"⟩] 2500
      = (1 : Int) := by
  apply (resolver_first_match_and_miss
    [⟨0, 0, 2000, 0, 2000, "A"⟩, ⟨1, 2000, 4000, 2000, 4000, "B"⟩] 2500).2
    1 ⟨1, 2000, 4000, 2000, 4000, "B"⟩ rfl
  · exact ⟨by decide, by decide⟩
  · intro j e2 hj hget
    interval_cases j
    simp only [List.get?] at hget
    cases hget
    decide


/-- C3 — a time-advance event never resets `currentSubtitleIndex`: whenever
`handleTimeUpdate` completes, (a) if no entry covers the timestamp (a gap)
the index is unchanged from its prior value, and (b) the index can be `-1`
afterwards only if it already was `-1` before the event. -/
theorem time_advance_gap_keeps_index (s : PlayState) (t : Int)
    (s2 : PlayState) (cmds : List MediaCommand)
    (h : handleTimeUpdate s t = some (s2, cmds)) :
    ((∀ sub : Subtitle, s.subtitle = some sub → ∀ e ∈ sub.entries, ¬ covers e t) →
      s2.currentSubtitleIndex = s.currentSubtitleIndex) ∧
    (s2.currentSubtitleIndex = -1 → s.currentSubtitleIndex = -1) := by
  unfold handleTimeUpdate at h
  cases hsub : s.subtitle with
  | none =>
    rw [hsub] at h
    simp only [Option.some.injEq, Prod.mk.injEq] at h
    obtain ⟨rfl, rfl⟩ := h
    exact ⟨fun _ => rfl, fun x => x⟩
  | some sub =>
    rw [hsub] at h
    cases hchk : checkPlayMode s t false with
    | none => rw [hchk] at h; simp at h
    | some res =>
      rw [hchk] at h
      obtain ⟨shouldUpdate, cmds2⟩ := res
      cases shouldUpdate with
      | false =>
        simp only [Bool.false_eq_true, if_false, Option.some.injEq,
          Prod.mk.injEq] at h
        obtain ⟨rfl, rfl⟩ := h
        exact ⟨fun _ => rfl, fun x => x⟩
      | true =>
        simp only [if_true] at h
        by_cases hidx : findSubtitleIndex sub.entries t = -1
        · rw [if_pos hidx] at h
          simp only [Option.some.injEq, Prod.mk.injEq] at h
          obtain ⟨rfl, rfl⟩ := h
          exact ⟨fun _ => rfl, fun x => x⟩
        · rw [if_neg hidx] at h
          simp only [Option.some.injEq, Prod.mk.injEq] at h
          obtain ⟨rfl, rfl⟩ := h
          constructor
          · intro hgap
            exact absurd
              ((findSubtitleIndex_eq_neg_one_iff sub.entries t).mpr (hgap sub rfl))
              hidx
          · intro h2
            exact absurd h2 hidx

/-- Witness for `time_advance_gap_keeps_index`: Off mode, index 0,
time-advance to 5000 which lies past both entries of `exEntries`. -/
theorem time_advance_gap_keeps_index_witness :
    handleTimeUpdate exOffState 5000 = some (exOffState, []) ∧
    ((∀ sub : Subtitle, exOffState.subtitle = some sub →
        ∀ e ∈ sub.entries, ¬ covers e 5000) →
      exOffState.currentSubtitleIndex = exOffState.currentSubtitleIndex) ∧
    (exOffState.currentSubtitleIndex = -1 →
      exOffState.currentSubtitleIndex = -1) :=
  ⟨by decide, time_advance_gap_keeps_index exOffState 5000 exOffState [] (by decide)⟩

/-- C1 counterexample — the claim says that in SinglePause mode, before the
boundary (`now < currentEntry.preciseEndTime`), `currentSubtitleIndex` is
updated to the resolver's result whenever a covering entry is found. At
time 2500 the current entry (index 0, `preciseEndTime` 3000) is not yet
finished, the resolver finds covering entry 1, yet `handleTimeUpdate`
leaves the index at 0 and issues no command: the SinglePause branch of
`checkPlayMode` returns `false` unconditionally, so the index is never
updated by time-advance while a current entry is selected. -/
theorem singlePause_before_boundary_no_index_update_cex :
    handleTimeUpdate cexPauseState 2500 = some (cexPauseState, []) ∧
    cexPauseState.currentSubtitleIndex = 0 ∧
    findSubtitleIndex cexPauseEntries 2500 = 1 ∧
    entryAt cexPauseEntries 0 = some ⟨0, 0, 2000, 0, 3000, "A"⟩ ∧
    (2500 : Int) < 3000 := by decide

/-- C1 (amended) — in SinglePause mode with a current entry selected (and
edit mode off), a time-advance event issues exactly one pause command when
`now >= preciseEndTime` and no command before the boundary, and in both
cases `currentSubtitleIndex` is left unchanged (the state is returned
as-is; time-advance never updates the index in this mode). -/
theorem singlePause_time_advance_behavior (s : PlayState) (t : Int)
    (sub : Subtitle) (e : SubtitleEntry)
    (hsub : s.subtitle = some sub)
    (hmode : s.playMode = PlayMode.singlePause)
    (hedit : s.editMode = false)
    (hne : s.currentSubtitleIndex ≠ -1)
    (he : entryAt sub.entries s.currentSubtitleIndex = some e) :
    handleTimeUpdate s t =
      some (s, if e.preciseEndTime ≤ t then [MediaCommand.pause] else []) := by
  by_cases hend : e.preciseEndTime ≤ t
  · simp [handleTimeUpdate, checkPlayMode, hsub, hmode, hedit, hne, he, hend]
  · simp [handleTimeUpdate, checkPlayMode, hsub, hmode, hedit, hne, he, hend]

/-- Witness for `singlePause_time_advance_behavior`: SinglePause, index 0,
time 2500 is past the current entry's `preciseEndTime` 2000, so the event
pauses and keeps the index. -/
theorem singlePause_time_advance_behavior_witness :
    handleTimeUpdate exPauseState 2500 = some (exPauseState, [MediaCommand.pause]) := by
  have h := singlePause_time_advance_behavior exPauseState 2500 exSubtitle
    ⟨0, 0, 2000, 0, 2000, "A"⟩ rfl rfl rfl (by decide) (by decide)
  simpa using h

/-- C5 — in SingleLoop mode with a current entry selected (edit mode off),
once `now >= preciseEndTime` the time-advance event seeks the media back to
the entry's `preciseStartTime`, keeps `currentSubtitleIndex` unchanged (the
whole state is returned unchanged), and issues no pause command (the
command list is exactly the one seek). -/
theorem singleLoop_seeks_back_no_pause (s : PlayState) (t : Int)
    (sub : Subtitle) (e : SubtitleEntry)
    (hsub : s.subtitle = some sub)
    (hmode : s.playMode = PlayMode.singleLoop)
    (hedit : s.editMode = false)
    (hne : s.currentSubtitleIndex ≠ -1)
    (he : entryAt sub.entries s.currentSubtitleIndex = some e)
    (hend : e.preciseEndTime ≤ t) :
    handleTimeUpdate s t = some (s, [MediaCommand.seek e.preciseStartTime]) := by
  simp [handleTimeUpdate, checkPlayMode, hsub, hmode, hedit, hne, he, hend]

/-- Witness for `singleLoop_seeks_back_no_pause`: SingleLoop, index 0, time
2500 is past `preciseEndTime` 2000, so the event seeks back to 0 and keeps
playing. -/
theorem singleLoop_seeks_back_no_pause_witness :
    handleTimeUpdate exLoopState 2500 = some (exLoopState, [MediaCommand.seek 0]) := by
  have h := singleLoop_seeks_back_no_pause exLoopState 2500 exSubtitle
    ⟨0, 0, 2000, 0, 2000, "A"⟩ rfl rfl rfl (by decide) (by decide) (by decide)
  simpa using h

/-- C6 — Edit Session round-trip: with a valid current entry index,
`handleEnterEditMode` succeeds, and following it immediately with
`handleExitEditMode` (the cancel action) leaves the stored subtitle
aggregate — and hence the entry at index `i` with its precise times and
text — exactly as before entering; neither handler touches storage (their
types take no store argument because the source handlers never call
`MediaDatabaseService`). -/
theorem edit_enter_cancel_roundtrip (s : PlayState) (sub : Subtitle)
    (i : Nat) (e : SubtitleEntry)
    (hsub : s.subtitle = some sub)
    (hidx : s.currentSubtitleIndex = (i : Int))
    (hget : sub.entries.get? i = some e) :
    ∃ s1, handleEnterEditMode s = some s1 ∧
      s1.subtitle = some sub ∧
      (handleExitEditMode s1).subtitle = some sub := by
  have hne : s.currentSubtitleIndex ≠ -1 := by rw [hidx]; omega
  have htn : ((i : Int)).toNat = i := by omega
  have hat : entryAt sub.entries s.currentSubtitleIndex = some e := by
    rw [hidx, entryAt, if_neg (by omega : ¬ ((i : Int) < 0)), htn]
    exact hget
  refine ⟨{ s with editMode := true, editedTime := ⟨e.preciseStartTime, e.preciseEndTime⟩ }, ?_, ?_, ?_⟩
  · simp [handleEnterEditMode, hsub, hne, hat]
  · exact hsub
  · simp [handleExitEditMode, hsub]

/-- Witness for `edit_enter_cancel_roundtrip`: entering and cancelling on
`exOffState` (current index 0) keeps the stored aggregate `exSubtitle`. -/
theorem edit_enter_cancel_roundtrip_witness :
    ∃ s1, handleEnterEditMode exOffState = some s1 ∧
      s1.subtitle = some exSubtitle ∧
      (handleExitEditMode s1).subtitle = some exSubtitle :=
  edit_enter_cancel_roundtrip exOffState exSubtitle 0
    ⟨0, 0, 2000, 0, 2000, "A"⟩ rfl rfl (by decide)

/-- C7 — Edit Session commit: with a valid current entry index `i`, entering
edit mode, moving the candidate start time forward by 200 ms and saving
(with the storage write succeeding) yields an in-memory aggregate whose
entry `i` has `preciseStartTime` exactly 200 larger and `preciseEndTime`
(and text and all other entries, by `List.set` of a single-field update)
unchanged, exits edit mode, performs the one aggregate write, surfaces no
error, and a subsequent reload by `videoId` returns exactly the updated
aggregate. -/
theorem edit_commit_plus200_persisted (s : PlayState) (sub : Subtitle)
    (i : Nat) (e : SubtitleEntry)
    (hsub : s.subtitle = some sub)
    (hidx : s.currentSubtitleIndex = (i : Int))
    (hget : sub.entries.get? i = some e) :
    ∃ s1 out,
      handleEnterEditMode s = some s1 ∧
      handleSaveTimeOffset (handleTimeOffset s1 200 true true) [sub] false = some out ∧
      out.state.subtitle = some { sub with entries := sub.entries.set i { e with preciseStartTime := e.preciseStartTime + 200 } } ∧
      out.state.editMode = false ∧
      out.writeAttempts = 1 ∧
      out.errorSurfaced = false ∧
      dbGetSubtitleByVideoId out.db sub.videoId = some { sub with entries := sub.entries.set i { e with preciseStartTime := e.preciseStartTime + 200 } } := by
  have hne : s.currentSubtitleIndex ≠ -1 := by rw [hidx]; omega
  have htn : ((i : Int)).toNat = i := by omega
  have hat : entryAt sub.entries s.currentSubtitleIndex = some e := by
    rw [hidx, entryAt, if_neg (by omega : ¬ ((i : Int) < 0)), htn]
    exact hget
  have hupd : updateEntryAt sub.entries s.currentSubtitleIndex ⟨e.preciseStartTime + 200, e.preciseEndTime⟩ = some (sub.entries.set i { e with preciseStartTime := e.preciseStartTime + 200 }) := by
    rw [hidx, updateEntryAt, if_neg (by omega : ¬ ((i : Int) < 0)), htn, hget]
  have hsave : handleSaveTimeOffset (handleTimeOffset { s with editMode := true, editedTime := ⟨e.preciseStartTime, e.preciseEndTime⟩ } 200 true true) [sub] false = some ⟨{ s with subtitle := some { sub with entries := sub.entries.set i { e with preciseStartTime := e.preciseStartTime + 200 } }, editMode := false, editedTime := ⟨0, 0⟩ }, dbPutSubtitle [sub] { sub with entries := sub.entries.set i { e with preciseStartTime := e.preciseStartTime + 200 } }, 1, false⟩ := by
    simp only [handleTimeOffset, if_true]
    simp only [handleSaveTimeOffset, handleExitEditMode, hsub, hne, hupd,
      if_false, if_true]
    simp [hne, hupd]
  refine ⟨_, _, ?_, hsave, rfl, rfl, rfl, rfl, ?_⟩
  · simp [handleEnterEditMode, hsub, hne, hat]
  · simp [dbPutSubtitle, dbGetSubtitleByVideoId]

/-- Witness for `edit_commit_plus200_persisted`: entering on entry 0 of
`exSubtitle`, adjusting +200 ms and saving moves `preciseStartTime` from 0
to 200 in memory and in the reloaded aggregate. -/
theorem edit_commit_plus200_persisted_witness :
    ∃ s1 out,
      handleEnterEditMode exOffState = some s1 ∧
      handleSaveTimeOffset (handleTimeOffset s1 200 true true) [exSubtitle] false = some out ∧
      out.state.subtitle = some { exSubtitle with entries := exSubtitle.entries.set 0 { (⟨0, 0, 2000, 0, 2000, "A"⟩ : SubtitleEntry) with preciseStartTime := (0 : Int) + 200 } } ∧
      out.state.editMode = false ∧
      out.writeAttempts = 1 ∧
      out.errorSurfaced = false ∧
      dbGetSubtitleByVideoId out.db exSubtitle.videoId = some { exSubtitle with entries := exSubtitle.entries.set 0 { (⟨0, 0, 2000, 0, 2000, "A"⟩ : SubtitleEntry) with preciseStartTime := (0 : Int) + 200 } } :=
  edit_commit_plus200_persisted exOffState exSubtitle 0
    ⟨0, 0, 2000, 0, 2000, "A"⟩ rfl rfl (by decide)

/-- C2 counterexample — the claim says a rejected storage write during
save leaves the in-memory entry at its pre-save precise times and makes
the error observable to the caller. Running the save handler on
`exEditFailState` (candidate start time 200, original `preciseStartTime`
0) with a failing store shows the in-memory entry already holds the edited
value 200 (the entry object is mutated in place before the write), while
`errorSurfaced` is `false` (the rejection lands in an empty catch block). -/
theorem save_failure_mutated_entry_and_silent_error_cex :
    (handleSaveTimeOffset exEditFailState [exSubtitle] true).map
        (fun out => (out.state.subtitle.map
          (fun sub => sub.entries.map (fun e => e.preciseStartTime)),
          out.errorSurfaced))
      = some (some [200, 2000], false) ∧
    exSubtitle.entries.map (fun e => e.preciseStartTime) = [0, 2000] := by
  decide

/-- C2 (amended) — when the storage write rejects during
`handleSaveTimeOffset` (valid current index), the handler completes with:
the in-memory aggregate's current entry holding the *candidate* edited
times (it was mutated in place before the write, so it does not keep its
pre-save values), the store left unchanged, exactly one write attempted
(no automatic retry), no error surfaced to the caller (the catch block is
empty), and the edit session still active (`editMode` unchanged, the
candidate buffer not discarded). -/
theorem save_failure_behavior (s : PlayState) (sub : Subtitle)
    (i : Nat) (e : SubtitleEntry) (db : List Subtitle)
    (hsub : s.subtitle = some sub)
    (hidx : s.currentSubtitleIndex = (i : Int))
    (hget : sub.entries.get? i = some e) :
    ∃ out, handleSaveTimeOffset s db true = some out ∧
      out.state.subtitle = some { sub with entries := sub.entries.set i { e with preciseStartTime := s.editedTime.startTime, preciseEndTime := s.editedTime.endTime } } ∧
      out.db = db ∧
      out.writeAttempts = 1 ∧
      out.errorSurfaced = false ∧
      out.state.editMode = s.editMode ∧
      out.state.editedTime = s.editedTime := by
  have hne : s.currentSubtitleIndex ≠ -1 := by rw [hidx]; omega
  have htn : ((i : Int)).toNat = i := by omega
  have hupd : updateEntryAt sub.entries s.currentSubtitleIndex s.editedTime = some (sub.entries.set i { e with preciseStartTime := s.editedTime.startTime, preciseEndTime := s.editedTime.endTime }) := by
    rw [hidx, updateEntryAt, if_neg (by omega : ¬ ((i : Int) < 0)), htn, hget]
  refine ⟨⟨{ s with subtitle := some { sub with entries := sub.entries.set i { e with preciseStartTime := s.editedTime.startTime, preciseEndTime := s.editedTime.endTime } } }, db, 1, false⟩, ?_, rfl, rfl, rfl, rfl, rfl, rfl⟩
  simp only [handleSaveTimeOffset, hsub, hne, hupd, if_true, if_false]

/-- Witness for `save_failure_behavior`: the failing save on
`exEditFailState` keeps edit mode active, attempts one write, leaves the
store untouched and surfaces no error. -/
theorem save_failure_behavior_witness :
    ∃ out, handleSaveTimeOffset exEditFailState [exSubtitle] true = some out ∧
      out.state.subtitle = some { exSubtitle with entries := exSubtitle.entries.set 0 { (⟨0, 0, 2000, 0, 2000, "A"⟩ : SubtitleEntry) with preciseStartTime := exEditFailState.editedTime.startTime, preciseEndTime := exEditFailState.editedTime.endTime } } ∧
      out.db = [exSubtitle] ∧
      out.writeAttempts = 1 ∧
      out.errorSurfaced = false ∧
      out.state.editMode = exEditFailState.editMode ∧
      out.state.editedTime = exEditFailState.editedTime :=
  save_failure_behavior exEditFailState exSubtitle 0
    ⟨0, 0, 2000, 0, 2000, "A"⟩ [exSubtitle] rfl rfl (by decide)

/-- A helper: an in-range integer index designates an entry. -/
theorem entryAt_of_nonneg_lt (entries : List SubtitleEntry) (j : Int)
    (h0 : 0 ≤ j) (hlt : j < (entries.length : Int)) :
    ∃ e, entryAt entries j = some e := by
  rw [entryAt, if_neg (by omega : ¬ (j < 0))]
  have hj : j.toNat < entries.length := by omega
  exact ⟨entries.get ⟨j.toNat, hj⟩, List.get?_eq_get hj⟩

/-- C10 — navigation keeps the current index in range: with an index in
`{-1} ∪ [0, n-1]`, previous is a no-op below 1 and otherwise decrements by
one (seeking to the target's `startTime` and playing), next is a no-op at
`n-1` and otherwise increments by one (seeking and playing), and every
result of either handler again has its index in `{-1} ∪ [0, n-1]`. -/
theorem navigation_keeps_index_in_range (s : PlayState) (sub : Subtitle)
    (hsub : s.subtitle = some sub)
    (hrange : s.currentSubtitleIndex = -1 ∨
      (0 ≤ s.currentSubtitleIndex ∧ s.currentSubtitleIndex < (sub.entries.length : Int))) :
    (s.currentSubtitleIndex < 1 → handlePreviousSubtitle s = some (s, [])) ∧
    (1 ≤ s.currentSubtitleIndex →
      ∃ e, entryAt sub.entries (s.currentSubtitleIndex - 1) = some e ∧
        handlePreviousSubtitle s = some ({ s with currentSubtitleIndex := s.currentSubtitleIndex - 1 }, [MediaCommand.seek e.startTime, MediaCommand.play])) ∧
    (s.currentSubtitleIndex = (sub.entries.length : Int) - 1 →
      handleNextSubtitle s = some (s, [])) ∧
    (s.currentSubtitleIndex ≠ (sub.entries.length : Int) - 1 →
      ∃ e, entryAt sub.entries (s.currentSubtitleIndex + 1) = some e ∧
        handleNextSubtitle s = some ({ s with currentSubtitleIndex := s.currentSubtitleIndex + 1 }, [MediaCommand.seek e.startTime, MediaCommand.play])) ∧
    (∀ (s2 : PlayState) (cmds : List MediaCommand),
      handlePreviousSubtitle s = some (s2, cmds) ∨ handleNextSubtitle s = some (s2, cmds) →
      (s2.currentSubtitleIndex = -1 ∨
        (0 ≤ s2.currentSubtitleIndex ∧ s2.currentSubtitleIndex < (sub.entries.length : Int)))) := by
  have hprev_noop : s.currentSubtitleIndex < 1 → handlePreviousSubtitle s = some (s, []) := by
    intro hlt
    simp only [handlePreviousSubtitle, hsub]
    rw [if_pos hlt]
  have hprev_step : 1 ≤ s.currentSubtitleIndex →
      ∃ e, entryAt sub.entries (s.currentSubtitleIndex - 1) = some e ∧
        handlePreviousSubtitle s = some ({ s with currentSubtitleIndex := s.currentSubtitleIndex - 1 }, [MediaCommand.seek e.startTime, MediaCommand.play]) := by
    intro hge
    have hn : s.currentSubtitleIndex < (sub.entries.length : Int) := by
      rcases hrange with h | h
      · omega
      · exact h.2
    obtain ⟨e, he⟩ := entryAt_of_nonneg_lt sub.entries (s.currentSubtitleIndex - 1)
      (by omega) (by omega)
    refine ⟨e, he, ?_⟩
    simp only [handlePreviousSubtitle, hsub]
    rw [if_neg (by omega : ¬ (s.currentSubtitleIndex < 1)), he]
  have hnext_noop : s.currentSubtitleIndex = (sub.entries.length : Int) - 1 →
      handleNextSubtitle s = some (s, []) := by
    intro heq
    simp only [handleNextSubtitle, hsub]
    rw [if_pos heq]
  have hnext_step : s.currentSubtitleIndex ≠ (sub.entries.length : Int) - 1 →
      ∃ e, entryAt sub.entries (s.currentSubtitleIndex + 1) = some e ∧
        handleNextSubtitle s = some ({ s with currentSubtitleIndex := s.currentSubtitleIndex + 1 }, [MediaCommand.seek e.startTime, MediaCommand.play]) := by
    intro hne
    have hlt : s.currentSubtitleIndex + 1 < (sub.entries.length : Int) := by
      rcases hrange with h | h
      · by_contra hc
        have hn0 : (sub.entries.length : Int) ≤ 0 := by omega
        omega
      · omega
    have h0 : 0 ≤ s.currentSubtitleIndex + 1 := by
      rcases hrange with h | h <;> omega
    obtain ⟨e, he⟩ := entryAt_of_nonneg_lt sub.entries (s.currentSubtitleIndex + 1) h0 hlt
    refine ⟨e, he, ?_⟩
    simp only [handleNextSubtitle, hsub]
    rw [if_neg hne, he]
  refine ⟨hprev_noop, hprev_step, hnext_noop, hnext_step, ?_⟩
  intro s2 cmds hcase
  rcases hcase with hp | hp
  · by_cases hlt : s.currentSubtitleIndex < 1
    · rw [hprev_noop hlt] at hp
      simp only [Option.some.injEq, Prod.mk.injEq] at hp
      obtain ⟨rfl, rfl⟩ := hp
      exact hrange
    · obtain ⟨e, he, heq⟩ := hprev_step (by omega)
      rw [heq] at hp
      simp only [Option.some.injEq, Prod.mk.injEq] at hp
      obtain ⟨rfl, rfl⟩ := hp
      have hx : ({ s with currentSubtitleIndex := s.currentSubtitleIndex - 1 } : PlayState).currentSubtitleIndex = s.currentSubtitleIndex - 1 := rfl
      rw [hx]
      rcases hrange with h | h
      · omega
      · right; omega
  · by_cases heqn : s.currentSubtitleIndex = (sub.entries.length : Int) - 1
    · rw [hnext_noop heqn] at hp
      simp only [Option.some.injEq, Prod.mk.injEq] at hp
      obtain ⟨rfl, rfl⟩ := hp
      exact hrange
    · obtain ⟨e, he, heq⟩ := hnext_step heqn
      rw [heq] at hp
      simp only [Option.some.injEq, Prod.mk.injEq] at hp
      obtain ⟨rfl, rfl⟩ := hp
      have hx : ({ s with currentSubtitleIndex := s.currentSubtitleIndex + 1 } : PlayState).currentSubtitleIndex = s.currentSubtitleIndex + 1 := rfl
      rw [hx]
      have hlt : s.currentSubtitleIndex + 1 < (sub.entries.length : Int) := by
        rcases hrange with h | h
        · by_contra hc
          omega
        · omega
      rcases hrange with h | h
      · right; omega
      · right; omega

/-- Witness for `navigation_keeps_index_in_range`: pressing previous at
index 0 of `exOffState` is a no-op (index stays 0, no commands). -/
theorem navigation_keeps_index_in_range_witness :
    handlePreviousSubtitle exOffState = some (exOffState, []) :=
  (navigation_keeps_index_in_range exOffState exSubtitle rfl
    (by decide)).1 (by decide)

/-- C8 — the Index Persistence Bridge never writes: for every session with
constant `mediaId` (any initial index and any sequence of index updates),
teardown performs no storage write, because the single run of the
`[mediaId]` effect is consumed by the first-render guard and registers
neither the `beforeunload` listener nor an unmount cleanup, and the effect
never re-runs. In particular the claim's scenario — index set to 3, then
teardown — writes nothing (second conjunct), contradicting the claim and
the hook's own documentation, which promise `lastSubtitleIndex := 3`. -/
theorem persist_hook_never_writes_on_teardown :
    (∀ (firstIdx : Int) (laterIdxs : List Int),
      teardownWrites (persistHookAfterMount firstIdx laterIdxs) = []) ∧
    teardownWrites (persistHookAfterMount (-1) [3]) = [] := by
  have hstep : ∀ (st : PersistHookState) (idx : Int),
      (runHookEffects false st idx).cleanupRegistered = st.cleanupRegistered := by
    intro st idx; rfl
  have hfold : ∀ (l : List Int) (st : PersistHookState),
      (l.foldl (runHookEffects false) st).cleanupRegistered = st.cleanupRegistered := by
    intro l
    induction l with
    | nil => intro st; rfl
    | cons a rest ih =>
      intro st
      rw [List.foldl_cons, ih, hstep]
  constructor
  · intro firstIdx laterIdxs
    have hreg : (persistHookAfterMount firstIdx laterIdxs).cleanupRegistered = false := by
      rw [persistHookAfterMount, hfold]
      rfl
    simp only [teardownWrites, hreg]
    simp
  · decide

/-- C9 — resuming from a stored `lastSubtitleIndex` of `0` (a valid entry
index, saved whenever the user left while the first entry was current)
does not restore the position: `useMediaInit` discards `0` with a truthy
check, and `handleLoadedMetadata` then faults on
`entries[null].startTime` instead of seeking to `entries[0].startTime`
and setting the index to 0 — even though the handler itself would restore
index 0 correctly if it were passed through (third conjunct). For `-1`
the no-restore behavior is as claimed (last two conjuncts). -/
theorem resume_index_zero_faults :
    savedIndexFromLoad (some 0) = none ∧
    handleLoadedMetadata (some exSubtitle) (savedIndexFromLoad (some 0)) =
      LoadedMetadataResult.fault ∧
    handleLoadedMetadata (some exSubtitle) (some 0) =
      LoadedMetadataResult.restored 0 0 ∧
    savedIndexFromLoad (some (-1)) = some (-1) ∧
    handleLoadedMetadata (some exSubtitle) (savedIndexFromLoad (some (-1))) =
      LoadedMetadataResult.noop := by
  decide
